import Mathlib

/-!
CodexMonitor — verification of the session reducer and TL;DR summarizer

Shallow embedding of the client-side session-state core of the CodexMonitor
repository:

* `src/hooks/useSessions.ts` — the `sessionReducer` state machine, the
  `opencode-event` decoding handler, `messagePartsToItems`, and the
  `sendMessage` controller operation;
* the `useHandoffTldr` hook — `snapshotActivity`, `buildSummary`,
  `buildCurrentSummary`, and the persisted-baseline load effect.

JavaScript `Record<string, T>` maps are modelled as `String → Option T`
(`none` = key absent); JS runtime objects of the `ConversationItem` union are
modelled as one flat structure in which every field that some variant lacks is
an `Option` (`none` = property absent), so that TS object-spread merge can be
embedded field-by-field.  `Date.now()` and `Math.random()` results are passed
in as explicit parameters.  Dynamically-typed protocol payloads are modelled
by the `JsValue` type below, with JS property access, truthiness, string
coercion and `JSON.stringify(·, null, 2)` embedded explicitly; a property
access on `null`/`undefined`, which throws in JS, is an `Except.error`.
-/

/-- Model of `Record<string, α>`: a JS string-keyed map, `none` meaning the key is
absent. -/
def StrMap (α : Type) : Type := String → Option α

/-- Assignment `m[k] = v` (JS computed-key object spread `{...m, [k]: v}`). -/
def mapSet {α : Type} (m : StrMap α) (k : String) (v : α) : StrMap α :=
  fun x => if x = k then some v else m x

/-- Deletion `delete m[k]`. -/
def mapDel {α : Type} (m : StrMap α) (k : String) : StrMap α :=
  fun x => if x = k then none else m x

/-- One entry of a tool item's `changes` list
(`{ path: string; kind?: string; diff?: string }`). -/
structure Change where
  path : String
  kind : Option String
  diff : Option String
deriving DecidableEq, Repr

/-- A JS runtime object of the `ConversationItem` tagged union
(`src/types.ts`).  `id` and `kind` are present in every variant; every other
property is optional at runtime, which is what TS object spread operates on.
The per-variant typing of `src/types.ts` is recovered by which fields the
constructors below populate. -/
structure ConversationItem where
  id : String
  kind : String
  role : Option String
  text : Option String
  summary : Option String
  content : Option String
  toolType : Option String
  title : Option String
  detail : Option String
  status : Option String
  output : Option String
  changes : Option (List Change)
  diff : Option String
  state : Option String
deriving DecidableEq, Repr

/-- The all-absent item, used as the base for object literals: a JS object
literal contains exactly the keys written in it. -/
def emptyItem : ConversationItem :=
  { id := "", kind := "", role := none, text := none, summary := none,
    content := none, toolType := none, title := none, detail := none,
    status := none, output := none, changes := none, diff := none,
    state := none }

/-- Type `TurnPlanStepStatus` (`src/types.ts`). -/
inductive TurnPlanStepStatus where
  | pending
  | inProgress
  | completed
deriving DecidableEq, Repr

/-- Type `TurnPlanStep` (`src/types.ts`). -/
structure TurnPlanStep where
  step : String
  status : TurnPlanStepStatus
deriving DecidableEq, Repr

/-- Type `TurnPlan` (`src/types.ts`). -/
structure TurnPlan where
  turnId : String
  explanation : Option String
  steps : List TurnPlanStep
deriving DecidableEq, Repr

/-- Type `SessionSummary` (`src/types.ts`). -/
structure SessionSummary where
  id : String
  title : String
deriving DecidableEq, Repr

/-- One value of `sessionStatusById`.  The reducer builds these by spreading a
possibly-absent previous entry, so each flag is individually optional. -/
structure SessionStatus where
  isProcessing : Option Bool
  hasUnread : Option Bool
deriving DecidableEq, Repr

/-- Type `SessionState` (`useSessions.ts`). -/
structure SessionState where
  activeSessionIdByWorkspace : StrMap (Option String)
  itemsBySession : StrMap (List ConversationItem)
  sessionsByWorkspace : StrMap (List SessionSummary)
  sessionStatusById : StrMap SessionStatus
  sessionListLoadingByWorkspace : StrMap Bool
  planBySession : StrMap (Option TurnPlan)

/-- Constant `initialState` (`useSessions.ts`). -/
def initialState : SessionState :=
  { activeSessionIdByWorkspace := fun _ => none,
    itemsBySession := fun _ => none,
    sessionsByWorkspace := fun _ => none,
    sessionStatusById := fun _ => none,
    sessionListLoadingByWorkspace := fun _ => none,
    planBySession := fun _ => none }

/-- Type `SessionAction` (`useSessions.ts`). -/
inductive SessionAction where
  | setActiveSessionId (workspaceId : String) (sessionId : Option String)
  | ensureSession (workspaceId sessionId : String) (title : Option String)
  | removeSession (workspaceId sessionId : String)
  | clearWorkspaceSessions (workspaceId : String)
  | markProcessing (sessionId : String) (isProcessing : Bool)
  | markUnread (sessionId : String) (hasUnread : Bool)
  | addUserMessage (workspaceId sessionId text : String)
  | appendAssistantDelta (sessionId itemId delta : String)
  | appendReasoningDelta (sessionId itemId delta : String)
  | appendToolOutput (sessionId itemId delta : String)
  | setToolStatus (sessionId itemId status : String)
  | appendToolChanges (sessionId itemId : String) (changes : List Change)
  | upsertItem (sessionId : String) (item : ConversationItem)
  | setSessionItems (sessionId : String) (items : List ConversationItem)
  | setSessions (workspaceId : String) (sessions : List SessionSummary)
  | setSessionListLoading (workspaceId : String) (isLoading : Bool)
  | setSessionPlan (sessionId : String) (plan : Option TurnPlan)
  | setSessionTitle (workspaceId sessionId title : String)
deriving DecidableEq, Repr

/-- Constant `MAX_ITEMS_PER_SESSION` (`useSessions.ts` line 18). -/
def MAX_ITEMS_PER_SESSION : Nat := 400

/-- JS `xs.slice(-n)` for `n > 0`: the last `min n xs.length` elements. -/
def sliceLast {α : Type} (n : Nat) (xs : List α) : List α :=
  xs.drop (xs.length - n)

/-- Outcome of the `findIndex`-then-update step the reducer performs for the
delta/upsert actions. -/
inductive UpdateOutcome where
  | notFound
  | unchanged
  | updated (items : List ConversationItem)

/-- Embedding of `const idx = items.findIndex((i) => i.id === itemId)` followed by either
an in-place update of `items[idx]` (when `f` accepts the found item) or a
kind-mismatch bail-out (`f` returns `none`, the reducer returns the state
unchanged).  `notFound` is `idx === -1`. -/
def updateFirst (itemId : String) (f : ConversationItem → Option ConversationItem) :
    List ConversationItem → UpdateOutcome
  | [] => .notFound
  | i :: rest =>
    if i.id = itemId then
      match f i with
      | none => .unchanged
      | some i' => .updated (i' :: rest)
    else
      match updateFirst itemId f rest with
      | .notFound => .notFound
      | .unchanged => .unchanged
      | .updated rest' => .updated (i :: rest')

/-- The shared shape of every "append/attach to item X" reducer case:
if no item with the id exists, cap the list to `MAX_ITEMS_PER_SESSION - 1`
from the front and append a freshly created item; if it exists and has the
right kind, update it in place; if it exists with the wrong kind, leave the
list as it is.  (In the wrong-kind case the source returns the whole state
object unchanged; writing the unchanged list back under its own key is the
same map, pointwise.) -/
def resolveUpd (items : List ConversationItem) (itemId : String)
    (f : ConversationItem → Option ConversationItem)
    (create : ConversationItem) : List ConversationItem :=
  match updateFirst itemId f items with
  | .notFound => sliceLast (MAX_ITEMS_PER_SESSION - 1) items ++ [create]
  | .unchanged => items
  | .updated l => l

/-- Fallback `action.title || "New Session"`: JS `||` with a string default treats the
empty string as falsy. -/
def strOrDefault (t : Option String) (d : String) : String :=
  match t with
  | some s => if s = "" then d else s
  | none => d

/-- The `appendAssistantDelta` update of an existing item (line 190-193).  JS
`existingItem.text + delta` coerces a missing `text` to the string
`"undefined"`; message items always carry `text`, so that fallback is
unreachable in practice. -/
def assistantDeltaUpdate (delta : String) (i : ConversationItem) :
    Option ConversationItem :=
  if i.kind = "message" then some { i with text := some (i.text.getD "undefined" ++ delta) }
  else none

/-- The item `appendAssistantDelta` creates when the id is new (line 176). -/
def assistantDeltaCreate (itemId delta : String) : ConversationItem :=
  { emptyItem with
    id := itemId, kind := "message", role := some "assistant",
    text := some delta }

/-- The `appendReasoningDelta` update of an existing item (line 221-227):
`(existingItem.content ?? "") + delta`. -/
def reasoningDeltaUpdate (delta : String) (i : ConversationItem) :
    Option ConversationItem :=
  if i.kind = "reasoning" then some { i with content := some (i.content.getD "" ++ delta) }
  else none

/-- The item `appendReasoningDelta` creates when the id is new (line 207). -/
def reasoningDeltaCreate (itemId delta : String) : ConversationItem :=
  { emptyItem with
    id := itemId, kind := "reasoning", summary := some "Thinking",
    content := some delta }

/-- The `appendToolOutput` update of an existing item (line 258-264):
`(existingItem.output ?? "") + delta`. -/
def toolOutputUpdate (delta : String) (i : ConversationItem) :
    Option ConversationItem :=
  if i.kind = "tool" then some { i with output := some (i.output.getD "" ++ delta) }
  else none

/-- The item `appendToolOutput` creates when the id is new (line 241). -/
def toolOutputCreate (itemId delta : String) : ConversationItem :=
  { emptyItem with
    id := itemId, kind := "tool", toolType := some "acpToolCall",
    title := some "Tool", detail := some "", status := some "in_progress",
    output := some delta }

/-- The `setToolStatus` update of an existing item (line 294-297): replaces only
`status`. -/
def toolStatusUpdate (st : String) (i : ConversationItem) :
    Option ConversationItem :=
  if i.kind = "tool" then some { i with status := some st }
  else none

/-- The item `setToolStatus` creates when the id is new (line 278). -/
def toolStatusCreate (itemId st : String) : ConversationItem :=
  { emptyItem with
    id := itemId, kind := "tool", toolType := some "acpToolCall",
    title := some "Tool", detail := some "", status := some st }

/-- The `appendToolChanges` update of an existing item (line 328-332):
`[...(existingItem.changes ?? []), ...action.changes]`. -/
def toolChangesUpdate (cs : List Change) (i : ConversationItem) :
    Option ConversationItem :=
  if i.kind = "tool" then some { i with changes := some (i.changes.getD [] ++ cs) }
  else none

/-- The item `appendToolChanges` creates when the id is new (line 311). -/
def toolChangesCreate (itemId : String) (cs : List Change) : ConversationItem :=
  { emptyItem with
    id := itemId, kind := "tool", toolType := some "acpToolCall",
    title := some "Tool", detail := some "", status := some "in_progress",
    changes := some cs }

/-- TS object spread `{ ...e, ...n }` over two runtime `ConversationItem`
objects: every property present on `n` wins, absent properties fall back to
`e`; `id` and `kind` are always present on `n`. -/
def mergeItem (e n : ConversationItem) : ConversationItem :=
  { id := n.id, kind := n.kind,
    role := n.role.or e.role, text := n.text.or e.text,
    summary := n.summary.or e.summary, content := n.content.or e.content,
    toolType := n.toolType.or e.toolType, title := n.title.or e.title,
    detail := n.detail.or e.detail, status := n.status.or e.status,
    output := n.output.or e.output, changes := n.changes.or e.changes,
    diff := n.diff.or e.diff, state := n.state.or e.state }

/-- The `s.id === action.sessionId` update of the first matching session summary
(`setSessionTitle`, line 401-414); `none` = `idx === -1`, state unchanged. -/
def setTitleFirst (sid title : String) :
    List SessionSummary → Option (List SessionSummary)
  | [] => none
  | s :: rest =>
    if s.id = sid then some ({ s with
        title := title } :: rest)
    else (setTitleFirst sid title rest).map (fun l => s :: l)

/-- Function `sessionReducer` (`useSessions.ts` lines 66-419).  `now` is the value
`Date.now()` returns during this dispatch (used only by `addUserMessage` to
mint the optimistic user item's id). -/
def sessionReducer (now : Int) (state : SessionState) (action : SessionAction) :
    SessionState :=
  match action with
  | .setActiveSessionId ws sid =>
    { state with
        activeSessionIdByWorkspace :=
        mapSet state.activeSessionIdByWorkspace ws sid }
  | .ensureSession ws sid title =>
    let existing := (state.sessionsByWorkspace ws).getD []
    if existing.any (fun s => s.id = sid) then state
    else
      { state with
          sessionsByWorkspace :=
          mapSet state.sessionsByWorkspace ws
            (existing ++ [{ id := sid, title := strOrDefault title "New Session" }]) }
  | .removeSession ws sid =>
    let sessions := (state.sessionsByWorkspace ws).getD []
    { state with
        sessionsByWorkspace :=
        mapSet state.sessionsByWorkspace ws (sessions.filter (fun s => s.id ≠ sid)) }
  | .clearWorkspaceSessions ws =>
    let oldSessions := (state.sessionsByWorkspace ws).getD []
    { state with
      activeSessionIdByWorkspace :=
        mapSet state.activeSessionIdByWorkspace ws none,
      sessionsByWorkspace := mapSet state.sessionsByWorkspace ws [],
      itemsBySession :=
        oldSessions.foldl (fun m s => mapDel m s.id) state.itemsBySession,
      sessionStatusById :=
        oldSessions.foldl (fun m s => mapDel m s.id) state.sessionStatusById,
      planBySession :=
        oldSessions.foldl (fun m s => mapDel m s.id) state.planBySession }
  | .markProcessing sid b =>
    let old := state.sessionStatusById sid
    { state with
        sessionStatusById :=
        mapSet state.sessionStatusById sid
          { isProcessing := some b, hasUnread := old.bind (fun o => o.hasUnread) } }
  | .markUnread sid b =>
    let old := state.sessionStatusById sid
    { state with
        sessionStatusById :=
        mapSet state.sessionStatusById sid
          { isProcessing := old.bind (fun o => o.isProcessing), hasUnread := some b } }
  | .addUserMessage _ sid text =>
    let items := (state.itemsBySession sid).getD []
    let newItem : ConversationItem :=
      { emptyItem with
        id := "user-" ++ toString now, kind := "message",
        role := some "user", text := some text }
    { state with
        itemsBySession :=
        mapSet state.itemsBySession sid
          (sliceLast (MAX_ITEMS_PER_SESSION - 1) items ++ [newItem]) }
  | .appendAssistantDelta sid iid delta =>
    { state with
        itemsBySession :=
        mapSet state.itemsBySession sid
          (resolveUpd ((state.itemsBySession sid).getD []) iid
            (assistantDeltaUpdate delta) (assistantDeltaCreate iid delta)) }
  | .appendReasoningDelta sid iid delta =>
    { state with
        itemsBySession :=
        mapSet state.itemsBySession sid
          (resolveUpd ((state.itemsBySession sid).getD []) iid
            (reasoningDeltaUpdate delta) (reasoningDeltaCreate iid delta)) }
  | .appendToolOutput sid iid delta =>
    { state with
        itemsBySession :=
        mapSet state.itemsBySession sid
          (resolveUpd ((state.itemsBySession sid).getD []) iid
            (toolOutputUpdate delta) (toolOutputCreate iid delta)) }
  | .setToolStatus sid iid st =>
    { state with
        itemsBySession :=
        mapSet state.itemsBySession sid
          (resolveUpd ((state.itemsBySession sid).getD []) iid
            (toolStatusUpdate st) (toolStatusCreate iid st)) }
  | .appendToolChanges sid iid cs =>
    { state with
        itemsBySession :=
        mapSet state.itemsBySession sid
          (resolveUpd ((state.itemsBySession sid).getD []) iid
            (toolChangesUpdate cs) (toolChangesCreate iid cs)) }
  | .upsertItem sid item =>
    { state with
        itemsBySession :=
        mapSet state.itemsBySession sid
          (resolveUpd ((state.itemsBySession sid).getD []) item.id
            (fun e => some (mergeItem e item)) item) }
  | .setSessionItems sid items =>
    { state with
        itemsBySession :=
        mapSet state.itemsBySession sid (sliceLast MAX_ITEMS_PER_SESSION items) }
  | .setSessions ws sessions =>
    { state with sessionsByWorkspace := mapSet state.sessionsByWorkspace ws sessions }
  | .setSessionListLoading ws b =>
    { state with
        sessionListLoadingByWorkspace :=
        mapSet state.sessionListLoadingByWorkspace ws b }
  | .setSessionPlan sid plan =>
    { state with planBySession := mapSet state.planBySession sid plan }
  | .setSessionTitle ws sid title =>
    let sessions := (state.sessionsByWorkspace ws).getD []
    match setTitleFirst sid title sessions with
    | none => state
    | some l =>
      { state with sessionsByWorkspace := mapSet state.sessionsByWorkspace ws l }

/-- The item list of a session, `state.itemsBySession[sid] || []`. -/
def getItems (state : SessionState) (sid : String) : List ConversationItem :=
  (state.itemsBySession sid).getD []

/-- A dynamically-typed JS value, as carried by the `params` payload of an
`opencode-event` envelope (floats, functions and symbols do not occur in this
protocol and are not modelled). -/
inductive JsValue where
  | null
  | undefined
  | bool (b : Bool)
  | num (n : Int)
  | str (s : String)
  | arr (elems : List JsValue)
  | obj (fields : List (String × JsValue))

/-- JS truthiness. -/
def jsTruthy : JsValue → Bool
  | .null => false
  | .undefined => false
  | .bool b => b
  | .num n => n ≠ 0
  | .str s => s ≠ ""
  | .arr _ => true
  | .obj _ => true

/-- JS nullish coalescing `a ?? b`. -/
def jsNullish (a b : JsValue) : JsValue :=
  match a with
  | .null => b
  | .undefined => b
  | v => v

/-- JS `a || b`. -/
def jsOrTruthy (a b : JsValue) : JsValue :=
  if jsTruthy a then a else b

/-- Test `typeof v === "object"` (true for objects, arrays and `null`). -/
def jsTypeofObject : JsValue → Bool
  | .null => true
  | .arr _ => true
  | .obj _ => true
  | _ => false

/-- Property lookup on an object's field list; a later duplicate key wins, a
missing key is `undefined`. -/
def lookupField (fs : List (String × JsValue)) (k : String) : JsValue :=
  (fs.foldl (fun acc p => if p.1 = k then some p.2 else acc) none).getD .undefined

/-- Total JS property access `v[k]` for a `v` already known not to be
`null`/`undefined` (access on a primitive yields `undefined`). -/
def jsGetD : JsValue → String → JsValue
  | .obj fs, k => lookupField fs k
  | _, _ => .undefined

/-- JS property access `v[k]`; on `null` or `undefined` it throws a
`TypeError`, modelled as `Except.error`. -/
def jsGet : JsValue → String → Except Unit JsValue
  | .null, _ => .error ()
  | .undefined, _ => .error ()
  | v, k => .ok (jsGetD v k)

/-- Comparison `v === "lit"` for a string literal: true exactly when `v` is that
string. -/
def jsStrEq (v : JsValue) (s : String) : Bool :=
  match v with
  | .str t => t = s
  | _ => false

mutual

/-- JS `String(v)` / template-literal coercion. -/
def jsToString : JsValue → String
  | .null => "null"
  | .undefined => "undefined"
  | .bool b => if b then "true" else "false"
  | .num n => toString n
  | .str s => s
  | .obj _ => "[object Object]"
  | .arr es => String.intercalate "," (jsToStringElems es)

/-- Semantics of `Array.prototype.join(",")`: `null`/`undefined` elements print as the
empty string. -/
def jsToStringElems : List JsValue → List String
  | [] => []
  | .null :: rest => "" :: jsToStringElems rest
  | .undefined :: rest => "" :: jsToStringElems rest
  | v :: rest => jsToString v :: jsToStringElems rest

end

/-- One hex digit. -/
def hexDigit (n : Nat) : Char :=
  if n < 10 then Char.ofNat (48 + n) else Char.ofNat (87 + n)

/-- The JSON escape of one character, as produced by `JSON.stringify`. -/
def jsonEscapeChar (c : Char) : String :=
  if c = '"' then "\\\""
  else if c = '\\' then "\\\\"
  else if c = '\n' then "\\n"
  else if c = '\r' then "\\r"
  else if c = '\t' then "\\t"
  else if c = Char.ofNat 8 then "\\b"
  else if c = Char.ofNat 12 then "\\f"
  else if c.toNat < 32 then
    "\\u00" ++ String.mk [hexDigit (c.toNat / 16), hexDigit (c.toNat % 16)]
  else String.mk [c]

/-- A JSON string literal for `s`. -/
def jsonQuote (s : String) : String :=
  "\"" ++ String.join (s.data.map jsonEscapeChar) ++ "\""

mutual

/-- Embedding of `JSON.stringify(v, null, 2)` at indentation `ind`; `none` when the value
serializes to `undefined`. -/
def jsonStringify2V (ind : String) : JsValue → Option String
  | .null => some "null"
  | .undefined => none
  | .bool b => some (if b then "true" else "false")
  | .num n => some (toString n)
  | .str s => some (jsonQuote s)
  | .arr es =>
    match es with
    | [] => some "[]"
    | _ =>
      some ("[\n"
        ++ String.intercalate ",\n"
             ((jsonStringify2Elems (ind ++ "  ") es).map (fun e => ind ++ "  " ++ e))
        ++ "\n" ++ ind ++ "]")
  | .obj fs =>
    match jsonStringify2Fields (ind ++ "  ") fs with
    | [] => some "\x7b\x7d"
    | entries =>
      some ("\x7b\n"
        ++ String.intercalate ",\n" (entries.map (fun e => ind ++ "  " ++ e))
        ++ "\n" ++ ind ++ "\x7d")

/-- Array elements; an element serializing to `undefined` prints as
`null`. -/
def jsonStringify2Elems (ind : String) : List JsValue → List String
  | [] => []
  | v :: rest => (jsonStringify2V ind v).getD "null" :: jsonStringify2Elems ind rest

/-- Object entries; a property whose value serializes to `undefined` is
skipped. -/
def jsonStringify2Fields (ind : String) : List (String × JsValue) → List String
  | [] => []
  | (k, v) :: rest =>
    match jsonStringify2V ind v with
    | none => jsonStringify2Fields ind rest
    | some sv => (jsonQuote k ++ ": " ++ sv) :: jsonStringify2Fields ind rest

end

/-- Embedding of `JSON.stringify(v, null, 2)`. -/
def jsonStringify2 (v : JsValue) : Option String :=
  jsonStringify2V "" v

/-- Truncation `s.length > n ? s.slice(0, n) + "…" : s` (the 4000/10000-character
truncations of `useSessions.ts`). -/
def truncateEllipsis (n : Nat) (s : String) : String :=
  if s.length > n then s.take n ++ "…" else s

/-- Type `MessagePart` (`src/types.ts`). -/
inductive MessagePart where
  | text (text : String)
  | reasoning (text : String)
  | tool_use (id : String) (name : String) (input : JsValue)
  | tool_result (tool_use_id : String) (content : String)
  | patch (hash : String) (files : List String)
  | file (url : String) (mime : String)

/-- The item one `MessagePart` contributes in `messagePartsToItems`
(`useSessions.ts` lines 446-499); a `file` part matches no `case` and
contributes nothing. -/
def messagePartToItem (messageId : String) (role : String) :
    MessagePart → Option ConversationItem
  | .text t =>
    some { emptyItem with
      id := messageId ++ "-text", kind := "message", role := some role,
      text := some t }
  | .reasoning t =>
    some { emptyItem with
      id := messageId ++ "-reasoning", kind := "reasoning",
      summary := some (t.take 100), content := some t }
  | .tool_use pid name input =>
    some { emptyItem with
      id := pid, kind := "tool", toolType := some name, title := some name,
      detail := jsonStringify2 input, status := some "running" }
  | .tool_result tuid content =>
    some { emptyItem with
      id := tuid, kind := "tool", toolType := some "result",
      title := some "Tool Result", detail := some "", output := some content,
      status := some "completed" }
  | .patch _ files =>
    some { emptyItem with
      id := messageId ++ "-patch", kind := "diff",
      title := some ("Changes to " ++ toString files.length ++ " file(s)"),
      diff := some (String.intercalate "\n" files), status := some "completed" }
  | .file _ _ => none

/-- Function `messagePartsToItems` (`useSessions.ts` lines 439-502). -/
def messagePartsToItems (messageId : String) (role : String)
    (parts : List MessagePart) : List ConversationItem :=
  parts.filterMap (messagePartToItem messageId role)

/-- What one `opencode-event` callback run produces: the reducer actions it
dispatches, in dispatch order, and the turn-scoped id trackers
(`activeAssistantMessageIdRef`, `activeReasoningItemIdRef`) after the run. -/
structure HandlerResult where
  actions : List SessionAction
  assistantRef : StrMap String
  reasoningRef : StrMap String

/-- Actions contributed by one entry of a tool-call update's `content` array
(`useSessions.ts` lines 657-719).  Values reaching typed action fields are
coerced with `jsToString`, which is how the reducer would observe them as
object keys / string concatenands. -/
def toolContentActions (sid itemId : String) (item : JsValue) :
    List SessionAction :=
  if !(jsTruthy item && jsTypeofObject item) then []
  else
    let contentType := jsToString (jsNullish (jsGetD item "type") (.str ""))
    if contentType = "content" then
      let inner := jsGetD item "content"
      if !(jsTruthy inner && jsTypeofObject inner) then []
      else if !(jsStrEq (jsGetD inner "type") "text") then []
      else
        let text := jsToString (jsNullish (jsGetD inner "text") (.str ""))
        if text = "" then []
        else [.appendToolOutput sid itemId text]
    else if contentType = "diff" then
      let path := jsToString (jsNullish (jsGetD item "path") (.str ""))
      let oldText := jsToString (jsNullish (jsGetD item "oldText") (.str ""))
      let newText := jsToString (jsNullish (jsGetD item "newText") (.str ""))
      if path = "" then []
      else
        let diffBody :=
          "--- " ++ path ++ "\n+++ " ++ path ++ "\n@@\n-" ++ oldText ++ "\n+" ++ newText
        [.appendToolChanges sid itemId
          [{ path := path, kind := some "MOD", diff := some (truncateEllipsis 10000 diffBody) }]]
    else if contentType = "terminal" then
      let terminalId := jsToString (jsNullish (jsGetD item "terminalId") (.str ""))
      if terminalId ≠ "" then
        [.appendToolOutput sid itemId ("\n[terminal:" ++ terminalId ++ "]\n")]
      else []
    else []

/-- One entry of a `plan` update (`useSessions.ts` lines 730-751): `null` for
entries that are dropped (non-objects and empty step text). -/
def planEntryStep (e : JsValue) : Option TurnPlanStep :=
  if !(jsTruthy e && jsTypeofObject e) then none
  else
    let stepContent := jsToString (jsNullish (jsGetD e "content") (.str ""))
    let statusRaw := jsToString (jsNullish (jsGetD e "status") (.str "pending"))
    let stepStatus : TurnPlanStepStatus :=
      if statusRaw = "in_progress" then .inProgress
      else if statusRaw = "completed" then .completed
      else .pending
    if stepContent ≠ "" then some { step := stepContent, status := stepStatus }
    else none

/-- The `session/update` branch of the event handler (`useSessions.ts` lines
587-792), entered with a non-empty `targetSessionId`; `updV` is
`data.update`.  Field accesses inside this branch are guarded by
`!x || typeof x !== "object"` checks in the source and therefore total. -/
def sessionUpdateActions (aRef rRef : StrMap String) (rand : String) (now : Int)
    (sid : String) (updV : JsValue) : HandlerResult :=
  if !(jsTruthy updV && jsTypeofObject updV) then ⟨[], aRef, rRef⟩
  else
    let updateType := jsToString (jsNullish (jsGetD updV "sessionUpdate") (.str ""))
    if updateType = "agent_message_chunk" then
      let content := jsGetD updV "content"
      if !(jsTruthy content && jsTypeofObject content) then ⟨[], aRef, rRef⟩
      else
        let delta := jsToString (jsNullish (jsGetD content "text") (.str ""))
        if delta = "" then ⟨[], aRef, rRef⟩
        else
          let itemId := (aRef sid).getD ("assistant-" ++ sid)
          ⟨[.appendAssistantDelta sid itemId delta], aRef, rRef⟩
    else if updateType = "tool_call" ∨ updateType = "tool_call_update" then
      let toolCallId := jsToString (jsNullish (jsGetD updV "toolCallId") (.str ""))
      if toolCallId = "" then ⟨[], aRef, rRef⟩
      else
        let itemId := "tool-" ++ sid ++ "-" ++ toolCallId
        let createActions : List SessionAction :=
          if updateType = "tool_call" then
            let title := jsToString (jsNullish (jsGetD updV "title") (.str "Tool"))
            let kind := jsToString (jsNullish (jsGetD updV "kind") (.str ""))
            let status := jsToString (jsNullish (jsGetD updV "status") (.str "pending"))
            let rawInput := jsGetD updV "rawInput"
            let rawInputText :=
              if jsTruthy rawInput then (jsonStringify2 rawInput).getD "" else ""
            let detailRaw :=
              String.intercalate "\n" ([kind, rawInputText].filter (fun s => s ≠ ""))
            [.upsertItem sid
              { emptyItem with
                id := itemId, kind := "tool", toolType := some "acpToolCall",
                title := some (if kind ≠ "" then kind ++ ": " ++ title else title),
                detail := some (truncateEllipsis 4000 detailRaw),
                status := some status }]
          else []
        let statusActions : List SessionAction :=
          match jsGetD updV "status" with
          | .str s => if s ≠ "" then [.setToolStatus sid itemId s] else []
          | _ => []
        let contentActions : List SessionAction :=
          match jsGetD updV "content" with
          | .arr items => items.flatMap (toolContentActions sid itemId)
          | _ => []
        ⟨createActions ++ statusActions ++ contentActions, aRef, rRef⟩
    else if updateType = "plan" then
      match jsGetD updV "entries" with
      | .arr entries =>
        ⟨[.setSessionPlan sid
            (some { turnId := sid, explanation := none,
                    steps := entries.filterMap planEntryStep })], aRef, rRef⟩
      | _ => ⟨[], aRef, rRef⟩
    else if updateType = "agent_thought_chunk" then
      let content := jsGetD updV "content"
      if !(jsTruthy content && jsTypeofObject content) then ⟨[], aRef, rRef⟩
      else if !(jsStrEq (jsGetD content "type") "text") then ⟨[], aRef, rRef⟩
      else
        let delta := jsToString (jsNullish (jsGetD content "text") (.str ""))
        if delta = "" then ⟨[], aRef, rRef⟩
        else
          let stored := (rRef sid).getD ""
          if stored = "" then
            let fresh := "reasoning-" ++ toString now ++ "-" ++ rand
            ⟨[.appendReasoningDelta sid fresh delta], aRef, mapSet rRef sid fresh⟩
          else ⟨[.appendReasoningDelta sid stored delta], aRef, rRef⟩
    else ⟨[], aRef, rRef⟩

/-- The `opencode-event` listener callback (`useSessions.ts` lines 547-816).
`wsId` is the subscribed workspace, `eventWsId`/`method`/`params` the
envelope, `now`/`rand` the `Date.now()`/`Math.random()` draws of this run.
An `Except.error` is a `TypeError` escaping the callback (property access or
destructuring on a `null`/`undefined` payload). -/
def handleEvent (wsId : String) (aRef rRef : StrMap String) (rand : String)
    (now : Int) (eventWsId method : String) (params : JsValue) :
    Except Unit HandlerResult :=
  if eventWsId ≠ wsId then .ok ⟨[], aRef, rRef⟩
  else if method = "session/created" then do
    let idV ← jsGet params "id"
    let titleV ← jsGet params "title"
    .ok ⟨[.ensureSession wsId (jsToString idV)
            (some (jsToString (jsOrTruthy titleV (.str "New Session"))))],
         aRef, rRef⟩
  else if method = "session/updated" then do
    let idV ← jsGet params "id"
    let titleV ← jsGet params "title"
    .ok ⟨[.setSessionTitle wsId (jsToString idV)
            (jsToString (jsOrTruthy titleV (.str "Untitled Session")))],
         aRef, rRef⟩
  else if method = "session/deleted" then do
    let sidV ← jsGet params "sessionId"
    .ok ⟨[.removeSession wsId (jsToString sidV)], aRef, rRef⟩
  else if method = "session/update" then do
    let sidV ← jsGet params "sessionId"
    let targetSessionId := jsToString (jsNullish sidV (.str ""))
    if targetSessionId = "" then .ok ⟨[], aRef, rRef⟩
    else do
      let updV ← jsGet params "update"
      .ok (sessionUpdateActions aRef rRef rand now targetSessionId updV)
  else if method = "content/updated" then do
    let textV ← jsGet params "text"
    if jsTruthy textV then do
      let sidV ← jsGet params "sessionId"
      let midV ← jsGet params "messageId"
      .ok ⟨[.appendAssistantDelta (jsToString sidV)
              (jsToString (jsOrTruthy midV (.str ("assistant-" ++ toString now))))
              (jsToString textV)], aRef, rRef⟩
    else .ok ⟨[], aRef, rRef⟩
  else if method = "turn/completed" then do
    let sidV ← jsGet params "sessionId"
    let sid := jsToString sidV
    .ok ⟨[.markProcessing sid false], mapDel aRef sid, mapDel rRef sid⟩
  else .ok ⟨[], aRef, rRef⟩

/-- The id `sendMessage` mints for the pre-created assistant item:
`assistant-[Date.now()]-[random suffix]`. -/
def mkAssistantItemId (now : Int) (rand : String) : String :=
  "assistant-" ++ toString now ++ "-" ++ rand

/-- The id `addUserMessage` mints for the optimistic user item:
`user-[Date.now()]`. -/
def mkUserItemId (now : Int) : String :=
  "user-" ++ toString now

/-- The empty assistant item `sendMessage` pre-creates to receive streamed
deltas (`useSessions.ts` lines 886-895). -/
def pendingAssistantItem (now : Int) (rand : String) : ConversationItem :=
  { emptyItem with
    id := mkAssistantItemId now rand, kind := "message",
    role := some "assistant", text := some "" }

/-- The actions `sendMessage` dispatches when the external send operation
fails (`useSessions.ts` lines 865-908): the optimistic appends before the
`await`, then the catch handler's `markProcessing false`.  The catch also
logs; no exception escapes to the caller. -/
def sendMessageFailureDispatches (wsId sid text : String) (now : Int)
    (rand : String) : List SessionAction :=
  [.addUserMessage wsId sid text,
   .markProcessing sid true,
   .setSessionPlan sid none,
   .upsertItem sid (pendingAssistantItem now rand),
   .markProcessing sid false]

/-- Type `ActivitySnapshot` (`useHandoffTldr`).  Counters are JS numbers; deltas
between snapshots can be negative, so they are modelled as `Int`. -/
structure ActivitySnapshot where
  messageCount : Int
  toolCallCount : Int
  diffCount : Int
  planCompleted : Int
deriving DecidableEq, Repr

/-- Type `HandoffBaseline` (`useHandoffTldr`). -/
structure HandoffBaseline where
  openedAt : Int
  activity : ActivitySnapshot
deriving DecidableEq, Repr

/-- Function `snapshotActivity` (`useHandoffTldr` lines 105-123). -/
def snapshotActivity (items : List ConversationItem) (plan : Option TurnPlan) :
    ActivitySnapshot :=
  { messageCount :=
      (items.countP (fun i => i.kind = "message" ∧ i.role = some "assistant") : Int),
    toolCallCount := (items.countP (fun i => i.kind = "tool") : Int),
    diffCount := (items.countP (fun i => i.kind = "diff") : Int),
    planCompleted :=
      ((plan.map (fun p => (p.steps.filter (fun s => s.status = .completed)).length)).getD 0 : Int) }

/-- The plural suffix of a clause: empty exactly when the count is 1. -/
def pluralS (n : Int) : String :=
  if n = 1 then "" else "s"

/-- Function `buildCurrentSummary` (`useHandoffTldr` lines 175-189): the
absolute-snapshot fallback used when no baseline exists. -/
def buildCurrentSummary (current : ActivitySnapshot) : String :=
  let parts : List String :=
    (if current.planCompleted > 0 then
      [toString current.planCompleted ++ " task" ++ pluralS current.planCompleted ++ " done"]
     else [])
    ++ (if current.diffCount > 0 then
      [toString current.diffCount ++ " file" ++ pluralS current.diffCount ++ " changed"]
     else [])
  let parts :=
    parts ++ (if current.messageCount > 0 ∧ parts = [] then
      [toString current.messageCount ++ " response" ++ pluralS current.messageCount]
     else [])
  if parts ≠ [] then String.intercalate ", " parts else "Session active"

/-- Function `buildSummary` (`useHandoffTldr` lines 125-173). -/
def buildSummary (baseline : Option HandoffBaseline) (current : ActivitySnapshot)
    (isProcessing hasPendingApproval hasItems : Bool) : Option String :=
  if !hasItems then none
  else
    match baseline with
    | none => some (buildCurrentSummary current)
    | some b =>
      let msgDelta := current.messageCount - b.activity.messageCount
      let toolDelta := current.toolCallCount - b.activity.toolCallCount
      let diffDelta := current.diffCount - b.activity.diffCount
      let planDelta := current.planCompleted - b.activity.planCompleted
      if msgDelta = 0 ∧ toolDelta = 0 ∧ diffDelta = 0 ∧ planDelta = 0 then
        if isProcessing then some "Working…"
        else if hasPendingApproval then some "Waiting for approval"
        else some "No new activity"
      else
        let parts : List String :=
          (if planDelta > 0 then
            [toString planDelta ++ " task" ++ pluralS planDelta ++ " done"]
           else [])
          ++ (if diffDelta > 0 then
            [toString diffDelta ++ " file" ++ pluralS diffDelta ++ " changed"]
           else [])
          ++ (if toolDelta > 0 ∧ diffDelta = 0 then
            [toString toolDelta ++ " action" ++ pluralS toolDelta]
           else [])
        let parts :=
          parts ++ (if msgDelta > 0 ∧ parts = [] then
            [toString msgDelta ++ " response" ++ pluralS msgDelta]
           else [])
        if parts = [] then
          if isProcessing then some "Working…" else some "Caught up"
        else some (String.intercalate ", " parts)

/-- The specification's wording of the baseline-delta summary, written as a
second definition to compare against `buildSummary`: with a baseline and at
least one item, all-zero deltas give the processing/approval/no-activity
message; otherwise clauses qualify in the precedence completed-plan-steps,
changed-files, tool actions only if no files changed, message count only if
no other clause qualified, each pluralizing its noun exactly when its count
is not 1; if no clause qualified the summary falls back to
Working…/Caught up. -/
def specTldrSummary (b : HandoffBaseline) (current : ActivitySnapshot)
    (isProcessing hasPendingApproval : Bool) : String :=
  let msgDelta := current.messageCount - b.activity.messageCount
  let toolDelta := current.toolCallCount - b.activity.toolCallCount
  let diffDelta := current.diffCount - b.activity.diffCount
  let planDelta := current.planCompleted - b.activity.planCompleted
  if msgDelta = 0 ∧ toolDelta = 0 ∧ diffDelta = 0 ∧ planDelta = 0 then
    if isProcessing then "Working…"
    else if hasPendingApproval then "Waiting for approval"
    else "No new activity"
  else
    let planClause := planDelta > 0
    let diffClause := diffDelta > 0
    let toolClause := toolDelta > 0 ∧ diffDelta = 0
    let msgClause := msgDelta > 0 ∧ ¬planClause ∧ ¬diffClause ∧ ¬toolClause
    let clauses : List String :=
      (if planClause then
        [toString planDelta ++ " task" ++ pluralS planDelta ++ " done"] else [])
      ++ (if diffClause then
        [toString diffDelta ++ " file" ++ pluralS diffDelta ++ " changed"] else [])
      ++ (if toolClause then
        [toString toolDelta ++ " action" ++ pluralS toolDelta] else [])
      ++ (if msgClause then
        [toString msgDelta ++ " response" ++ pluralS msgDelta] else [])
    if clauses = [] then
      if isProcessing then "Working…" else "Caught up"
    else String.intercalate ", " clauses

/-- The specification's well-formedness condition on a stored baseline: an
object carrying a numeric `openedAt` and an `activity` object with the four
numeric counters.  Written from the spec's words, to compare with what the
load effect actually accepts. -/
def wellFormedStoredBaseline (v : JsValue) : Bool :=
  match v with
  | .obj _ =>
    (match jsGetD v "openedAt" with | .num _ => true | _ => false)
    && (match jsGetD v "activity" with
        | .obj _ =>
          let a := jsGetD v "activity"
          (match jsGetD a "messageCount" with | .num _ => true | _ => false)
          && (match jsGetD a "toolCallCount" with | .num _ => true | _ => false)
          && (match jsGetD a "diffCount" with | .num _ => true | _ => false)
          && (match jsGetD a "planCompleted" with | .num _ => true | _ => false)
        | _ => false)
  | _ => false

/-- Outcome of the baseline-load effect (`useHandoffTldr` lines 213-238):
either the parsed stored value is adopted as-is (`setBaseline(parsed)`), or a
fresh baseline is captured from the current snapshot, persisted under the
versioned key, and adopted. -/
inductive BaselineLoad where
  | adopted (v : JsValue)
  | captured (b : HandoffBaseline)

/-- The baseline-load effect, as a function of the outcome of
`localStorage.getItem` + `JSON.parse`: `stored = none` models a missing (or
falsy) stored string, `some (.error ())` a stored string on which
`JSON.parse` throws, and `some (.ok v)` a stored string parsing to `v`.  The
`try`/`catch` swallows only the parse error; no other validation is
performed. -/
def baselineLoadStep (stored : Option (Except Unit JsValue)) (now : Int)
    (items : List ConversationItem) (plan : Option TurnPlan) : BaselineLoad :=
  match stored with
  | some (.ok v) => .adopted v
  | some (.error _) =>
    .captured { openedAt := now, activity := snapshotActivity items plan }
  | none =>
    .captured { openedAt := now, activity := snapshotActivity items plan }

/-- Predicate: `f` sends an item whose id is `itemId` to an item whose id is still
`itemId` — every in-place update of the reducer has this property. -/
def IdPresOn (itemId : String)
    (f : ConversationItem → Option ConversationItem) : Prop :=
  ∀ i i', i.id = itemId → f i = some i' → i'.id = itemId

/-- The bounded-retention invariant: no session's item sequence exceeds the
application-wide cap. -/
def capOK (st : SessionState) : Prop :=
  ∀ sid, (getItems st sid).length ≤ MAX_ITEMS_PER_SESSION

/-- The (session id, item id) an action appends or updates, if any;
`addUserMessage` mints `user-[Date.now()]`. -/
def touchedItem (now : Int) : SessionAction → Option (String × String)
  | .addUserMessage _ sid _ => some (sid, mkUserItemId now)
  | .appendAssistantDelta sid iid _ => some (sid, iid)
  | .appendReasoningDelta sid iid _ => some (sid, iid)
  | .appendToolOutput sid iid _ => some (sid, iid)
  | .setToolStatus sid iid _ => some (sid, iid)
  | .appendToolChanges sid iid _ => some (sid, iid)
  | .upsertItem sid item => some (sid, item.id)
  | _ => none

/-- The id-uniqueness invariant: within each session's ordered sequence, item
ids are pairwise distinct. -/
def uniqIds (st : SessionState) : Prop :=
  ∀ sid, ((getItems st sid).map (fun i => i.id)).Nodup

/-- The freshness side conditions under which an action preserves
`uniqIds`: the minted optimistic-user-message id must not already occur in
its session, and a wholesale `setSessionItems` list must itself have unique
ids.  All other actions need no condition. -/
def freshCond (now : Int) (st : SessionState) : SessionAction → Prop
  | .addUserMessage _ sid _ => ∀ i ∈ getItems st sid, i.id ≠ mkUserItemId now
  | .setSessionItems _ items => (items.map (fun i => i.id)).Nodup
  | _ => True

/-- A tool-call action of C2 (`appendToolOutput` / `setToolStatus` /
`appendToolChanges`), abstracted over the shared session and item id. -/
inductive ToolAct where
  | out (delta : String)
  | setStatus (status : String)
  | addChanges (changes : List Change)

/-- The reducer action a `ToolAct` stands for. -/
def ToolAct.toAction (sid iid : String) : ToolAct → SessionAction
  | .out d => .appendToolOutput sid iid d
  | .setStatus s => .setToolStatus sid iid s
  | .addChanges cs => .appendToolChanges sid iid cs

/-- The net effect of one tool-call action on an existing tool item. -/
def applyToolAct (i : ConversationItem) : ToolAct → ConversationItem
  | .out d => { i with output := some (i.output.getD "" ++ d) }
  | .setStatus s => { i with status := some s }
  | .addChanges cs => { i with changes := some (i.changes.getD [] ++ cs) }

/-- The item the first tool-call action creates when no item with the id
exists yet. -/
def createToolItem (iid : String) : ToolAct → ConversationItem
  | .out d => toolOutputCreate iid d
  | .setStatus s => toolStatusCreate iid s
  | .addChanges cs => toolChangesCreate iid cs

/-- Concatenation, in dispatch order, of all output deltas of a tool-call
action sequence. -/
def outConcat : List ToolAct → String
  | [] => ""
  | .out d :: r => d ++ outConcat r
  | _ :: r => outConcat r

/-- Concatenation, in dispatch order, of all change lists of a tool-call
action sequence. -/
def changesConcat : List ToolAct → List Change
  | [] => []
  | .addChanges cs :: r => cs ++ changesConcat r
  | _ :: r => changesConcat r

/-- The last explicitly-set status value of a tool-call action sequence, if
any. -/
def lastStatus : List ToolAct → Option String
  | [] => none
  | a :: r =>
    match lastStatus r with
    | some s => some s
    | none =>
      match a with
      | .setStatus s => some s
      | _ => none

/-- The `session/update` envelope payload of a `tool_call` event carrying a
session id, tool-call id, title, kind and raw input (and no status), as in
the specification's scenario. -/
def toolCallParams (sid cid title kind : String) (rawInput : JsValue) : JsValue :=
  .obj [("sessionId", .str sid),
        ("update", .obj [("sessionUpdate", .str "tool_call"),
                         ("toolCallId", .str cid),
                         ("title", .str title),
                         ("kind", .str kind),
                         ("rawInput", rawInput)])]

/-- The `session/update` envelope payload of a `tool_call_update` event
carrying only a status. -/
def toolUpdateParams (sid cid status : String) : JsValue :=
  .obj [("sessionId", .str sid),
        ("update", .obj [("sessionUpdate", .str "tool_call_update"),
                         ("toolCallId", .str cid),
                         ("status", .str status)])]

lemma updateFirst_of_forall_ne {itemId : String}
    {f : ConversationItem → Option ConversationItem} :
    ∀ {items : List ConversationItem}, (∀ i ∈ items, i.id ≠ itemId) →
      updateFirst itemId f items = .notFound := by
  intro items
  induction items with
  | nil => intro _; rfl
  | cons i rest ih =>
    intro h
    have hi : i.id ≠ itemId := h i (List.mem_cons_self i rest)
    have hrest := ih (fun j hj => h j (List.mem_cons_of_mem i hj))
    simp [updateFirst, hi, hrest]

lemma updateFirst_notFound_forall {itemId : String}
    {f : ConversationItem → Option ConversationItem} :
    ∀ {items : List ConversationItem},
      updateFirst itemId f items = .notFound → ∀ i ∈ items, i.id ≠ itemId := by
  intro items
  induction items with
  | nil => intro _ i hi; cases hi
  | cons j rest ih =>
    intro h i hi
    by_cases hj : j.id = itemId
    · exfalso
      simp only [updateFirst, hj, if_true] at h
      cases hfj : f j <;> simp [hfj] at h
    · rcases List.mem_cons.mp hi with rfl | hi'
      · exact hj
      · apply ih ?_ i hi'
        simp only [updateFirst, hj, if_false] at h
        cases hrest : updateFirst itemId f rest <;> simp [hrest] at h ⊢

lemma updateFirst_unchanged_exists {itemId : String}
    {f : ConversationItem → Option ConversationItem} :
    ∀ {items : List ConversationItem},
      updateFirst itemId f items = .unchanged → ∃ i ∈ items, i.id = itemId := by
  intro items
  induction items with
  | nil => intro h; cases h
  | cons j rest ih =>
    intro h
    by_cases hj : j.id = itemId
    · exact ⟨j, List.mem_cons_self j rest, hj⟩
    · simp only [updateFirst, hj, if_false] at h
      cases hrest : updateFirst itemId f rest <;> simp [hrest] at h
      rcases ih hrest with ⟨i, hi, hid⟩
      exact ⟨i, List.mem_cons_of_mem j hi, hid⟩

lemma updateFirst_updated_map_id {itemId : String}
    {f : ConversationItem → Option ConversationItem} (hf : IdPresOn itemId f) :
    ∀ {items l : List ConversationItem},
      updateFirst itemId f items = .updated l →
      l.map (fun i => i.id) = items.map (fun i => i.id) := by
  intro items
  induction items with
  | nil => intro l h; cases h
  | cons j rest ih =>
    intro l h
    by_cases hj : j.id = itemId
    · simp only [updateFirst, hj, if_true] at h
      cases hfj : f j with
      | none => simp [hfj] at h
      | some j' =>
        simp only [hfj] at h
        cases h
        simp [hf j j' hj hfj, hj]
    · simp only [updateFirst, hj, if_false] at h
      cases hrest : updateFirst itemId f rest <;> simp [hrest] at h
      cases h
      simp [ih hrest]

lemma updateFirst_updated_mem {itemId : String}
    {f : ConversationItem → Option ConversationItem} (hf : IdPresOn itemId f) :
    ∀ {items l : List ConversationItem},
      updateFirst itemId f items = .updated l → ∃ i ∈ l, i.id = itemId := by
  intro items
  induction items with
  | nil => intro l h; cases h
  | cons j rest ih =>
    intro l h
    by_cases hj : j.id = itemId
    · simp only [updateFirst, hj, if_true] at h
      cases hfj : f j with
      | none => simp [hfj] at h
      | some j' =>
        simp only [hfj] at h
        cases h
        exact ⟨j', List.mem_cons_self j' rest, hf j j' hj hfj⟩
    · simp only [updateFirst, hj, if_false] at h
      cases hrest : updateFirst itemId f rest <;> simp [hrest] at h
      cases h
      rcases ih hrest with ⟨i, hi, hid⟩
      exact ⟨i, List.mem_cons_of_mem j hi, hid⟩

lemma updateFirst_append_last {itemId : String}
    {f : ConversationItem → Option ConversationItem}
    {t t' : ConversationItem} (ht : t.id = itemId) (hft : f t = some t') :
    ∀ {pre : List ConversationItem}, (∀ i ∈ pre, i.id ≠ itemId) →
      updateFirst itemId f (pre ++ [t]) = .updated (pre ++ [t']) := by
  intro pre
  induction pre with
  | nil => intro _; simp [updateFirst, ht, hft]
  | cons j rest ih =>
    intro h
    have hj : j.id ≠ itemId := h j (List.mem_cons_self j rest)
    have := ih (fun i hi => h i (List.mem_cons_of_mem j hi))
    simp [updateFirst, hj, this]

lemma sliceLast_length_le {α : Type} (n : Nat) (xs : List α) :
    (sliceLast n xs).length ≤ n := by
  simp only [sliceLast, List.length_drop]
  omega

lemma sliceLast_sublist {α : Type} (n : Nat) (xs : List α) :
    (sliceLast n xs).Sublist xs :=
  List.drop_sublist _ _

lemma sliceLast_subset {α : Type} {n : Nat} {xs : List α} {x : α}
    (h : x ∈ sliceLast n xs) : x ∈ xs :=
  (sliceLast_sublist n xs).subset h

lemma mem_sliceLast_append_last {α : Type} {n : Nat} (hn : 1 ≤ n)
    (l : List α) (e : α) : e ∈ sliceLast n (l ++ [e]) := by
  have hk : (l ++ [e]).length - n ≤ l.length := by
    simp only [List.length_append, List.length_singleton]
    omega
  simp only [sliceLast]
  rw [List.drop_append_of_le_length hk]
  exact List.mem_append_right _ (List.mem_singleton_self e)

lemma updateFirst_updated_length {itemId : String}
    {f : ConversationItem → Option ConversationItem} :
    ∀ {items l : List ConversationItem},
      updateFirst itemId f items = .updated l → l.length = items.length := by
  intro items
  induction items with
  | nil => intro l h; cases h
  | cons j rest ih =>
    intro l h
    by_cases hj : j.id = itemId
    · simp only [updateFirst, hj, if_true] at h
      cases hfj : f j <;> simp [hfj] at h
      cases h
      simp
    · simp only [updateFirst, hj, if_false] at h
      cases hrest : updateFirst itemId f rest <;> simp [hrest] at h
      cases h
      simp [ih hrest]

lemma resolveUpd_length {items : List ConversationItem} {itemId : String}
    {f : ConversationItem → Option ConversationItem} {c : ConversationItem}
    (h : items.length ≤ MAX_ITEMS_PER_SESSION) :
    (resolveUpd items itemId f c).length ≤ MAX_ITEMS_PER_SESSION := by
  unfold resolveUpd
  cases hu : updateFirst itemId f items with
  | notFound =>
    have := sliceLast_length_le (α := ConversationItem) (MAX_ITEMS_PER_SESSION - 1) items
    simp only [List.length_append, List.length_singleton]
    unfold MAX_ITEMS_PER_SESSION at this ⊢
    omega
  | unchanged => exact h
  | updated l => rw [updateFirst_updated_length hu]; exact h

lemma resolveUpd_mem {items : List ConversationItem} {itemId : String}
    {f : ConversationItem → Option ConversationItem} {c : ConversationItem}
    (hc : c.id = itemId) (hf : IdPresOn itemId f) :
    ∃ i ∈ resolveUpd items itemId f c, i.id = itemId := by
  unfold resolveUpd
  cases hu : updateFirst itemId f items with
  | notFound => exact ⟨c, List.mem_append_right _ (List.mem_singleton_self c), hc⟩
  | unchanged =>
    rcases updateFirst_unchanged_exists hu with ⟨i, hi, hid⟩
    exact ⟨i, hi, hid⟩
  | updated l => exact updateFirst_updated_mem hf hu

lemma resolveUpd_nodup {items : List ConversationItem} {itemId : String}
    {f : ConversationItem → Option ConversationItem} {c : ConversationItem}
    (hnd : (items.map (fun i => i.id)).Nodup) (hc : c.id = itemId)
    (hf : IdPresOn itemId f) :
    ((resolveUpd items itemId f c).map (fun i => i.id)).Nodup := by
  unfold resolveUpd
  cases hu : updateFirst itemId f items with
  | notFound =>
    have hne := updateFirst_notFound_forall hu
    have hsub : ((sliceLast (MAX_ITEMS_PER_SESSION - 1) items).map (fun i => i.id)).Sublist
        (items.map (fun i => i.id)) :=
      (sliceLast_sublist _ items).map _
    have hnd' := hnd.sublist hsub
    simp only [List.map_append, List.map_singleton]
    rw [List.nodup_append]
    refine ⟨hnd', List.nodup_singleton _, ?_⟩
    intro x hx
    simp only [List.mem_map] at hx
    rcases hx with ⟨i, hi, rfl⟩
    simp only [List.mem_singleton]
    rw [hc]
    exact hne i (sliceLast_subset hi)
  | unchanged => exact hnd
  | updated l => rw [updateFirst_updated_map_id hf hu]; exact hnd

lemma foldl_mapDel_of_none {α : Type} {k : String} :
    ∀ {l : List SessionSummary} {m : StrMap α}, m k = none →
      (l.foldl (fun acc s => mapDel acc s.id) m) k = none := by
  intro l
  induction l with
  | nil => intro m h; exact h
  | cons s rest ih =>
    intro m h
    apply ih
    simp only [mapDel]
    split
    · rfl
    · exact h

lemma foldl_mapDel_of_mem {α : Type} {k : String} :
    ∀ {l : List SessionSummary} {m : StrMap α},
      (∃ s ∈ l, s.id = k) → (l.foldl (fun acc s => mapDel acc s.id) m) k = none := by
  intro l
  induction l with
  | nil => rintro m ⟨s, hs, _⟩; cases hs
  | cons s rest ih =>
    rintro m ⟨s', hs', hid⟩
    rcases List.mem_cons.mp hs' with rfl | hmem
    · rw [List.foldl_cons]
      apply foldl_mapDel_of_none
      show (if k = s'.id then none else m k) = none
      simp [hid]
    · exact ih ⟨s', hmem, hid⟩

lemma foldl_mapDel_cases {α : Type} {k : String} :
    ∀ {l : List SessionSummary} {m : StrMap α},
      (l.foldl (fun acc s => mapDel acc s.id) m) k = none ∨
      (l.foldl (fun acc s => mapDel acc s.id) m) k = m k := by
  intro l
  induction l with
  | nil => intro m; exact Or.inr rfl
  | cons s rest ih =>
    intro m
    rw [List.foldl_cons]
    rcases @ih (mapDel m s.id) with h | h
    · exact Or.inl h
    · by_cases hk : k = s.id
      · left
        rw [h]
        simp [mapDel, hk]
      · right
        rw [h]
        simp [mapDel, hk]

lemma mapSet_self {α : Type} (m : StrMap α) (k : String) (v : α) :
    mapSet m k v k = some v := by
  simp [mapSet]

lemma mapSet_other {α : Type} (m : StrMap α) (k : String) (v : α) {x : String}
    (h : x ≠ k) : mapSet m k v x = m x := by
  simp [mapSet, h]

lemma idPresOn_assistantDeltaUpdate (itemId delta : String) :
    IdPresOn itemId (assistantDeltaUpdate delta) := by
  intro i i' hid hf
  unfold assistantDeltaUpdate at hf
  split at hf
  · injection hf with h'
    subst h'
    exact hid
  · cases hf

lemma idPresOn_reasoningDeltaUpdate (itemId delta : String) :
    IdPresOn itemId (reasoningDeltaUpdate delta) := by
  intro i i' hid hf
  unfold reasoningDeltaUpdate at hf
  split at hf
  · injection hf with h'
    subst h'
    exact hid
  · cases hf

lemma idPresOn_toolOutputUpdate (itemId delta : String) :
    IdPresOn itemId (toolOutputUpdate delta) := by
  intro i i' hid hf
  unfold toolOutputUpdate at hf
  split at hf
  · injection hf with h'
    subst h'
    exact hid
  · cases hf

lemma idPresOn_toolStatusUpdate (itemId st : String) :
    IdPresOn itemId (toolStatusUpdate st) := by
  intro i i' hid hf
  unfold toolStatusUpdate at hf
  split at hf
  · injection hf with h'
    subst h'
    exact hid
  · cases hf

lemma idPresOn_toolChangesUpdate (itemId : String) (cs : List Change) :
    IdPresOn itemId (toolChangesUpdate cs) := by
  intro i i' hid hf
  unfold toolChangesUpdate at hf
  split at hf
  · injection hf with h'
    subst h'
    exact hid
  · cases hf

lemma idPresOn_merge (item : ConversationItem) :
    IdPresOn item.id (fun e => some (mergeItem e item)) := by
  intro i i' _ hf
  cases hf
  rfl

lemma getItems_set (st : SessionState) (sid : String)
    (l : List ConversationItem) (s : String) :
    getItems { st with itemsBySession := mapSet st.itemsBySession sid l } s =
      if s = sid then l else getItems st s := by
  unfold getItems mapSet
  by_cases hs : s = sid <;> simp [hs]

lemma nodup_sliceLast_append {items : List ConversationItem}
    {c : ConversationItem} (hnd : (items.map (fun i => i.id)).Nodup)
    (hfresh : ∀ i ∈ items, i.id ≠ c.id) (n : Nat) :
    ((sliceLast n items ++ [c]).map (fun i => i.id)).Nodup := by
  simp only [List.map_append, List.map_singleton]
  rw [List.nodup_append]
  refine ⟨hnd.sublist ((sliceLast_sublist n items).map _), List.nodup_singleton _, ?_⟩
  intro x hx
  simp only [List.mem_map] at hx
  rcases hx with ⟨i, hi, rfl⟩
  simp only [List.mem_singleton]
  exact hfresh i (sliceLast_subset hi)

lemma applyToolAct_id (i : ConversationItem) (a : ToolAct) :
    (applyToolAct i a).id = i.id := by
  cases a <;> rfl

lemma applyToolAct_kind (i : ConversationItem) (a : ToolAct) :
    (applyToolAct i a).kind = i.kind := by
  cases a <;> rfl

lemma foldl_applyToolAct_id :
    ∀ (acts : List ToolAct) (t : ConversationItem),
      (acts.foldl applyToolAct t).id = t.id := by
  intro acts
  induction acts with
  | nil => intro t; rfl
  | cons a r ih => intro t; rw [List.foldl_cons, ih, applyToolAct_id]

lemma foldl_applyToolAct_kind :
    ∀ (acts : List ToolAct) (t : ConversationItem),
      (acts.foldl applyToolAct t).kind = t.kind := by
  intro acts
  induction acts with
  | nil => intro t; rfl
  | cons a r ih => intro t; rw [List.foldl_cons, ih, applyToolAct_kind]

lemma foldl_applyToolAct_output :
    ∀ (acts : List ToolAct) (t : ConversationItem),
      (acts.foldl applyToolAct t).output.getD "" =
        t.output.getD "" ++ outConcat acts := by
  intro acts
  induction acts with
  | nil => intro t; simp [outConcat]
  | cons a r ih =>
    intro t
    rw [List.foldl_cons, ih]
    cases a with
    | out d => simp [applyToolAct, outConcat, String.append_assoc]
    | setStatus s => simp [applyToolAct, outConcat]
    | addChanges cs => simp [applyToolAct, outConcat]

lemma foldl_applyToolAct_changes :
    ∀ (acts : List ToolAct) (t : ConversationItem),
      (acts.foldl applyToolAct t).changes.getD [] =
        t.changes.getD [] ++ changesConcat acts := by
  intro acts
  induction acts with
  | nil => intro t; simp [changesConcat]
  | cons a r ih =>
    intro t
    rw [List.foldl_cons, ih]
    cases a with
    | out d => simp [applyToolAct, changesConcat]
    | setStatus s => simp [applyToolAct, changesConcat]
    | addChanges cs => simp [applyToolAct, changesConcat, List.append_assoc]

lemma foldl_applyToolAct_status :
    ∀ (acts : List ToolAct) (t : ConversationItem),
      (acts.foldl applyToolAct t).status =
        match lastStatus acts with
        | some s => some s
        | none => t.status := by
  intro acts
  induction acts with
  | nil => intro t; rfl
  | cons a r ih =>
    intro t
    rw [List.foldl_cons, ih]
    cases hls : lastStatus r with
    | some s => simp [lastStatus, hls]
    | none =>
      cases a with
      | out d => simp [lastStatus, hls, applyToolAct]
      | setStatus s => simp [lastStatus, hls, applyToolAct]
      | addChanges cs => simp [lastStatus, hls, applyToolAct]

lemma c2_step (now : Int) (st : SessionState) (sid iid : String)
    {pre : List ConversationItem} {t : ConversationItem} (a : ToolAct)
    (hitems : st.itemsBySession sid = some (pre ++ [t]))
    (hid : t.id = iid) (hkind : t.kind = "tool")
    (hpre : ∀ i ∈ pre, i.id ≠ iid) :
    (sessionReducer now st (a.toAction sid iid)).itemsBySession sid =
      some (pre ++ [applyToolAct t a]) := by
  cases a with
  | out d =>
    have hupd : toolOutputUpdate d t = some (applyToolAct t (.out d)) := by
      simp [toolOutputUpdate, hkind, applyToolAct]
    simp only [ToolAct.toAction, sessionReducer]
    rw [mapSet_self]
    congr 1
    rw [hitems]
    simp only [Option.getD_some]
    unfold resolveUpd
    rw [updateFirst_append_last hid hupd hpre]
  | setStatus s =>
    have hupd : toolStatusUpdate s t = some (applyToolAct t (.setStatus s)) := by
      simp [toolStatusUpdate, hkind, applyToolAct]
    simp only [ToolAct.toAction, sessionReducer]
    rw [mapSet_self]
    congr 1
    rw [hitems]
    simp only [Option.getD_some]
    unfold resolveUpd
    rw [updateFirst_append_last hid hupd hpre]
  | addChanges cs =>
    have hupd : toolChangesUpdate cs t = some (applyToolAct t (.addChanges cs)) := by
      simp [toolChangesUpdate, hkind, applyToolAct]
    simp only [ToolAct.toAction, sessionReducer]
    rw [mapSet_self]
    congr 1
    rw [hitems]
    simp only [Option.getD_some]
    unfold resolveUpd
    rw [updateFirst_append_last hid hupd hpre]

lemma c2_fold (now : Int) (sid iid : String) :
    ∀ (acts : List ToolAct) (st : SessionState) (pre : List ConversationItem)
      (t : ConversationItem),
      st.itemsBySession sid = some (pre ++ [t]) → t.id = iid →
      t.kind = "tool" → (∀ i ∈ pre, i.id ≠ iid) →
      ((acts.map (fun a => a.toAction sid iid)).foldl (sessionReducer now) st).itemsBySession sid
        = some (pre ++ [acts.foldl applyToolAct t]) := by
  intro acts
  induction acts with
  | nil =>
    intro st pre t h _ _ _
    simpa using h
  | cons a r ih =>
    intro st pre t h hid hkind hpre
    rw [List.map_cons, List.foldl_cons, List.foldl_cons]
    exact ih _ _ _ (c2_step now st sid iid a h hid hkind hpre)
      (by rw [applyToolAct_id]; exact hid)
      (by rw [applyToolAct_kind]; exact hkind) hpre

lemma createToolItem_id (iid : String) (a : ToolAct) :
    (createToolItem iid a).id = iid := by
  cases a <;> rfl

lemma createToolItem_kind (iid : String) (a : ToolAct) :
    (createToolItem iid a).kind = "tool" := by
  cases a <;> rfl

lemma c2_first (now : Int) (st : SessionState) (sid iid : String) (a : ToolAct)
    (hfresh : ∀ i ∈ getItems st sid, i.id ≠ iid) :
    (sessionReducer now st (a.toAction sid iid)).itemsBySession sid =
      some (sliceLast (MAX_ITEMS_PER_SESSION - 1) (getItems st sid)
        ++ [createToolItem iid a]) := by
  have hfresh' : ∀ i ∈ (st.itemsBySession sid).getD [], i.id ≠ iid := hfresh
  cases a with
  | out d =>
    simp only [ToolAct.toAction, sessionReducer]
    rw [mapSet_self]
    refine congrArg some ?_
    unfold resolveUpd
    rw [updateFirst_of_forall_ne hfresh']
    rfl
  | setStatus s =>
    simp only [ToolAct.toAction, sessionReducer]
    rw [mapSet_self]
    refine congrArg some ?_
    unfold resolveUpd
    rw [updateFirst_of_forall_ne hfresh']
    rfl
  | addChanges cs =>
    simp only [ToolAct.toAction, sessionReducer]
    rw [mapSet_self]
    refine congrArg some ?_
    unfold resolveUpd
    rw [updateFirst_of_forall_ne hfresh']
    rfl

lemma lastStatus_cons (a : ToolAct) (r : List ToolAct) :
    lastStatus (a :: r) =
      match lastStatus r with
      | some s => some s
      | none =>
        match a with
        | .setStatus s => some s
        | _ => none := rfl

lemma user_ne_assistant (x y z : String) :
    "user-" ++ x ≠ "assistant-" ++ y ++ "-" ++ z := by
  intro h
  have hd := congrArg String.data h
  simp only [String.data_append] at hd
  simp only [List.cons_append, List.append_assoc] at hd
  injection hd with ha _
  exact absurd ha (by decide)

lemma markProcessing_items_eq (now : Int) (st : SessionState) (s' : String)
    (b : Bool) :
    (sessionReducer now st (.markProcessing s' b)).itemsBySession =
      st.itemsBySession := rfl

lemma setSessionPlan_items_eq (now : Int) (st : SessionState) (s' : String)
    (p : Option TurnPlan) :
    (sessionReducer now st (.setSessionPlan s' p)).itemsBySession =
      st.itemsBySession := rfl

lemma addUserMessage_items (now : Int) (st : SessionState) (ws sid text : String) :
    (sessionReducer now st (.addUserMessage ws sid text)).itemsBySession sid =
      some (sliceLast (MAX_ITEMS_PER_SESSION - 1) ((st.itemsBySession sid).getD [])
        ++ [{ emptyItem with
              id := mkUserItemId now, kind := "message", role := some "user",
              text := some text }]) := by
  simp only [sessionReducer]
  rw [mapSet_self]
  rfl

lemma upsertItem_fresh_items (now : Int) (st : SessionState) (sid : String)
    (item : ConversationItem)
    (hfr : ∀ i ∈ (st.itemsBySession sid).getD [], i.id ≠ item.id) :
    (sessionReducer now st (.upsertItem sid item)).itemsBySession sid =
      some (sliceLast (MAX_ITEMS_PER_SESSION - 1) ((st.itemsBySession sid).getD [])
        ++ [item]) := by
  simp only [sessionReducer]
  rw [mapSet_self]
  refine congrArg some ?_
  unfold resolveUpd
  rw [updateFirst_of_forall_ne hfr]

lemma markProcessing_isProcessing (now : Int) (st : SessionState) (sid : String)
    (b : Bool) :
    ((sessionReducer now st (.markProcessing sid b)).sessionStatusById sid).bind
      (fun o => o.isProcessing) = some b := by
  simp only [sessionReducer]
  rw [mapSet_self]
  rfl

lemma jsGet_ok {v : JsValue} (h1 : v ≠ .null) (h2 : v ≠ .undefined) (k : String) :
    jsGet v k = .ok (jsGetD v k) := by
  cases v with
  | null => exact absurd rfl h1
  | undefined => exact absurd rfl h2
  | bool b => rfl
  | num n => rfl
  | str s => rfl
  | arr es => rfl
  | obj fs => rfl

lemma ok_bind {ε α β : Type} (a : α) (f : α → Except ε β) :
    (Except.ok a >>= f : Except ε β) = f a := rfl

/-- C10: with no baseline and at least one item, a snapshot with only tool
activity (toolCallCount > 0, all other counters 0) summarizes to exactly
"Session active" — the absolute-snapshot fallback never mentions tool
actions. -/
theorem c10_tool_only_fallback (c : ActivitySnapshot) (proc appr : Bool)
    (ht : c.toolCallCount > 0) (hp : c.planCompleted = 0)
    (hd : c.diffCount = 0) (hm : c.messageCount = 0) :
    buildSummary none c proc appr true = some "Session active" := by
  simp [buildSummary, buildCurrentSummary, hp, hd, hm]

theorem c10_witness :
    ((⟨0, 1, 0, 0⟩ : ActivitySnapshot).toolCallCount > 0) ∧
    buildSummary none ⟨0, 1, 0, 0⟩ false false true = some "Session active" :=
  ⟨by decide, c10_tool_only_fallback ⟨0, 1, 0, 0⟩ false false (by decide) rfl rfl rfl⟩

/-- C3: with a baseline and at least one item, `buildSummary` produces
exactly the summary described by the specification's wording
(`specTldrSummary`): all-zero deltas give Working…/Waiting for
approval/No new activity, non-zero deltas give the comma-joined clause
phrase in the stated precedence with per-clause pluralization, with
Working…/Caught up as the fallback; in particular plan delta 2 with all
other deltas zero and not processing yields "2 tasks done". -/
theorem c3_summary_matches_spec :
    (∀ (b : HandoffBaseline) (c : ActivitySnapshot) (proc appr : Bool),
      buildSummary (some b) c proc appr true = some (specTldrSummary b c proc appr)) ∧
    buildSummary (some ⟨0, ⟨0, 0, 0, 0⟩⟩) ⟨0, 0, 0, 2⟩ false false true =
      some "2 tasks done" := by
  constructor
  · intro b c proc appr
    unfold buildSummary specTldrSummary
    simp only [Bool.not_true, Bool.false_eq_true, if_false]
    generalize c.messageCount - b.activity.messageCount = m
    generalize c.toolCallCount - b.activity.toolCallCount = t
    generalize c.diffCount - b.activity.diffCount = d
    generalize c.planCompleted - b.activity.planCompleted = p
    by_cases hp : p > 0 <;>
    by_cases hd : d > 0 <;>
    by_cases ht : t > 0 ∧ d = 0 <;>
    by_cases hm : m > 0 <;>
    simp only [hp, hd, ht, hm, if_true, if_false, not_false_iff, not_true,
      true_and, false_and, and_true, and_false, List.append_nil,
      List.nil_append, ite_true, ite_false, if_pos, List.cons_ne_nil] <;>
    split_ifs <;>
    simp_all
  · decide

/-- C8 counterexample: the stored string "{}" parses successfully, is not a
well-formed baseline in the spec's sense, and is adopted anyway — the load
effect validates nothing beyond JSON syntax. -/
theorem c8_counterexample :
    baselineLoadStep (some (.ok (.obj []))) 0 [] none = .adopted (.obj []) ∧
    wellFormedStoredBaseline (.obj []) = false :=
  ⟨rfl, rfl⟩

/-- C8 amended: on first reference the stored entry is adopted whenever it
is present and parses as JSON, regardless of its shape; only a missing entry
or a JSON parse failure is treated as absent, in which case a fresh baseline
is captured from the current snapshot (and persisted).  The effect is a
total function: it never faults. -/
theorem c8_adoption_characterization (stored : Option (Except Unit JsValue))
    (now : Int) (items : List ConversationItem) (plan : Option TurnPlan) :
    (∀ v, stored = some (.ok v) →
      baselineLoadStep stored now items plan = .adopted v) ∧
    (stored = none ∨ stored = some (.error ()) →
      baselineLoadStep stored now items plan =
        .captured { openedAt := now, activity := snapshotActivity items plan }) := by
  constructor
  · intro v hv
    subst hv
    rfl
  · intro hv
    rcases hv with h | h <;> subst h <;> rfl

theorem c8_witness :
    baselineLoadStep (some (.error ())) 7 [] none =
      .captured { openedAt := 7, activity := snapshotActivity [] none } :=
  (c8_adoption_characterization (some (.error ())) 7 [] none).2 (Or.inr rfl)

/-- C1: every reducer action keeps every session's item sequence within
`MAX_ITEMS_PER_SESSION` (= 400), and the item the action appends or updates
is present in the resulting sequence — the front-truncation performed in the
same step never evicts it. -/
theorem c1_cap_and_presence (now : Int) (st : SessionState) (a : SessionAction)
    (h : capOK st) :
    capOK (sessionReducer now st a) ∧
    ∀ sid iid, touchedItem now a = some (sid, iid) →
      ∃ i ∈ getItems (sessionReducer now st a) sid, i.id = iid := by
  cases a with
  | setActiveSessionId ws sid =>
    exact ⟨fun s => h s, fun _ _ hc => by cases hc⟩
  | ensureSession ws sid title =>
    refine ⟨?_, fun _ _ hc => by cases hc⟩
    intro s
    simp only [sessionReducer]
    split
    · exact h s
    · exact h s
  | removeSession ws sid =>
    exact ⟨fun s => h s, fun _ _ hc => by cases hc⟩
  | clearWorkspaceSessions ws =>
    refine ⟨?_, fun _ _ hc => by cases hc⟩
    intro s
    simp only [sessionReducer, getItems]
    rcases foldl_mapDel_cases (l := (st.sessionsByWorkspace ws).getD [])
      (m := st.itemsBySession) (k := s) with hc | hc
    · rw [hc]
      simp
    · rw [hc]
      exact h s
  | markProcessing sid b =>
    exact ⟨fun s => h s, fun _ _ hc => by cases hc⟩
  | markUnread sid b =>
    exact ⟨fun s => h s, fun _ _ hc => by cases hc⟩
  | addUserMessage ws sid text =>
    refine ⟨?_, ?_⟩
    · intro s
      simp only [sessionReducer]
      rw [getItems_set]
      split
      · have hl := sliceLast_length_le (MAX_ITEMS_PER_SESSION - 1)
          ((st.itemsBySession sid).getD [])
        simp only [List.length_append, List.length_singleton]
        unfold MAX_ITEMS_PER_SESSION at hl ⊢
        omega
      · exact h s
    · intro sid' iid' hc
      cases hc
      simp only [sessionReducer]
      rw [getItems_set, if_pos rfl]
      exact ⟨_, List.mem_append_right _ (List.mem_singleton_self _), rfl⟩
  | appendAssistantDelta sid iid delta =>
    refine ⟨?_, ?_⟩
    · intro s
      simp only [sessionReducer]
      rw [getItems_set]
      split
      · exact resolveUpd_length (h sid)
      · exact h s
    · intro sid' iid' hc
      cases hc
      simp only [sessionReducer]
      rw [getItems_set, if_pos rfl]
      exact resolveUpd_mem rfl (idPresOn_assistantDeltaUpdate iid delta)
  | appendReasoningDelta sid iid delta =>
    refine ⟨?_, ?_⟩
    · intro s
      simp only [sessionReducer]
      rw [getItems_set]
      split
      · exact resolveUpd_length (h sid)
      · exact h s
    · intro sid' iid' hc
      cases hc
      simp only [sessionReducer]
      rw [getItems_set, if_pos rfl]
      exact resolveUpd_mem rfl (idPresOn_reasoningDeltaUpdate iid delta)
  | appendToolOutput sid iid delta =>
    refine ⟨?_, ?_⟩
    · intro s
      simp only [sessionReducer]
      rw [getItems_set]
      split
      · exact resolveUpd_length (h sid)
      · exact h s
    · intro sid' iid' hc
      cases hc
      simp only [sessionReducer]
      rw [getItems_set, if_pos rfl]
      exact resolveUpd_mem rfl (idPresOn_toolOutputUpdate iid delta)
  | setToolStatus sid iid st' =>
    refine ⟨?_, ?_⟩
    · intro s
      simp only [sessionReducer]
      rw [getItems_set]
      split
      · exact resolveUpd_length (h sid)
      · exact h s
    · intro sid' iid' hc
      cases hc
      simp only [sessionReducer]
      rw [getItems_set, if_pos rfl]
      exact resolveUpd_mem rfl (idPresOn_toolStatusUpdate iid st')
  | appendToolChanges sid iid cs =>
    refine ⟨?_, ?_⟩
    · intro s
      simp only [sessionReducer]
      rw [getItems_set]
      split
      · exact resolveUpd_length (h sid)
      · exact h s
    · intro sid' iid' hc
      cases hc
      simp only [sessionReducer]
      rw [getItems_set, if_pos rfl]
      exact resolveUpd_mem rfl (idPresOn_toolChangesUpdate iid cs)
  | upsertItem sid item =>
    refine ⟨?_, ?_⟩
    · intro s
      simp only [sessionReducer]
      rw [getItems_set]
      split
      · exact resolveUpd_length (h sid)
      · exact h s
    · intro sid' iid' hc
      cases hc
      simp only [sessionReducer]
      rw [getItems_set, if_pos rfl]
      exact resolveUpd_mem rfl (idPresOn_merge item)
  | setSessionItems sid items =>
    refine ⟨?_, fun _ _ hc => by cases hc⟩
    intro s
    simp only [sessionReducer]
    rw [getItems_set]
    split
    · exact sliceLast_length_le _ _
    · exact h s
  | setSessions ws sessions =>
    exact ⟨fun s => h s, fun _ _ hc => by cases hc⟩
  | setSessionListLoading ws b =>
    exact ⟨fun s => h s, fun _ _ hc => by cases hc⟩
  | setSessionPlan sid plan =>
    exact ⟨fun s => h s, fun _ _ hc => by cases hc⟩
  | setSessionTitle ws sid title =>
    refine ⟨?_, fun _ _ hc => by cases hc⟩
    intro s
    simp only [sessionReducer]
    split
    · exact h s
    · exact h s

theorem c1_witness :
    capOK (sessionReducer 0 initialState (.appendToolOutput "s" "t" "x")) ∧
    ∃ i ∈ getItems (sessionReducer 0 initialState (.appendToolOutput "s" "t" "x")) "s",
      i.id = "t" := by
  have h := c1_cap_and_presence 0 initialState (.appendToolOutput "s" "t" "x")
    (fun sid => by simp [getItems, initialState])
  exact ⟨h.1, h.2 "s" "t" rfl⟩

/-- C5: after `clearWorkspaceSessions`, no item sequence, processing/unread
status entry or plan entry remains under any session id that belonged to the
workspace, the workspace's session summary list is empty, and its
active-session pointer is null. -/
theorem c5_clear_workspace (now : Int) (st : SessionState) (ws : String) :
    (∀ sid, sid ∈ ((st.sessionsByWorkspace ws).getD []).map (fun s => s.id) →
      (sessionReducer now st (.clearWorkspaceSessions ws)).itemsBySession sid = none ∧
      (sessionReducer now st (.clearWorkspaceSessions ws)).sessionStatusById sid = none ∧
      (sessionReducer now st (.clearWorkspaceSessions ws)).planBySession sid = none) ∧
    (sessionReducer now st (.clearWorkspaceSessions ws)).sessionsByWorkspace ws = some [] ∧
    (sessionReducer now st (.clearWorkspaceSessions ws)).activeSessionIdByWorkspace ws = some none := by
  refine ⟨?_, ?_, ?_⟩
  · intro sid hsid
    simp only [List.mem_map] at hsid
    rcases hsid with ⟨s, hs, hid⟩
    refine ⟨?_, ?_, ?_⟩ <;>
      exact foldl_mapDel_of_mem ⟨s, hs, hid⟩
  · exact mapSet_self _ _ _
  · exact mapSet_self _ _ _

theorem c5_witness :
    (sessionReducer 0 (sessionReducer 0 initialState (.ensureSession "w" "s1" none))
        (.clearWorkspaceSessions "w")).itemsBySession "s1" = none ∧
    (sessionReducer 0 (sessionReducer 0 initialState (.ensureSession "w" "s1" none))
        (.clearWorkspaceSessions "w")).sessionsByWorkspace "w" = some [] := by
  have h := c5_clear_workspace 0
    (sessionReducer 0 initialState (.ensureSession "w" "s1" none)) "w"
  exact ⟨(h.1 "s1" (by decide)).1, h.2.1⟩

/-- C7 counterexample: `messagePartsToItems` maps a `tool_use` part and the
`tool_result` part answering it to two items with the same id, so the
`setSessionItems` action built from them leaves a session whose item ids are
not pairwise distinct, starting from the (trivially unique) initial state. -/
theorem c7_counterexample :
    uniqIds initialState ∧
    ¬ ((getItems (sessionReducer 0 initialState
          (.setSessionItems "s" (messagePartsToItems "m" "assistant"
            [.tool_use "t1" "bash" (.obj []), .tool_result "t1" "done"]))) "s").map
        (fun i => i.id)).Nodup :=
  ⟨fun _ => by simp [getItems, initialState], by decide⟩

/-- C7 amended: every reducer action preserves id-uniqueness within each
session, provided the id minted for an optimistic user message does not
already occur in its session and a `setSessionItems` payload has pairwise
distinct ids; `messagePartsToItems` itself can produce duplicate ids (see
the counterexample), so the latter condition is not automatic. -/
theorem c7_amended_uniqueness (now : Int) (st : SessionState) (a : SessionAction)
    (h : uniqIds st) (hf : freshCond now st a) :
    uniqIds (sessionReducer now st a) := by
  cases a with
  | setActiveSessionId ws sid => exact fun s => h s
  | ensureSession ws sid title =>
    intro s
    simp only [sessionReducer]
    split
    · exact h s
    · exact h s
  | removeSession ws sid => exact fun s => h s
  | clearWorkspaceSessions ws =>
    intro s
    simp only [sessionReducer, getItems]
    rcases foldl_mapDel_cases (l := (st.sessionsByWorkspace ws).getD [])
      (m := st.itemsBySession) (k := s) with hc | hc
    · rw [hc]
      simp
    · rw [hc]
      exact h s
  | markProcessing sid b => exact fun s => h s
  | markUnread sid b => exact fun s => h s
  | addUserMessage ws sid text =>
    intro s
    simp only [sessionReducer]
    rw [getItems_set]
    split
    · have hf' : ∀ i ∈ getItems st sid, i.id ≠ mkUserItemId now := hf
      exact nodup_sliceLast_append (h sid) hf' _
    · exact h s
  | appendAssistantDelta sid iid delta =>
    intro s
    simp only [sessionReducer]
    rw [getItems_set]
    split
    · exact resolveUpd_nodup (h sid) rfl (idPresOn_assistantDeltaUpdate iid delta)
    · exact h s
  | appendReasoningDelta sid iid delta =>
    intro s
    simp only [sessionReducer]
    rw [getItems_set]
    split
    · exact resolveUpd_nodup (h sid) rfl (idPresOn_reasoningDeltaUpdate iid delta)
    · exact h s
  | appendToolOutput sid iid delta =>
    intro s
    simp only [sessionReducer]
    rw [getItems_set]
    split
    · exact resolveUpd_nodup (h sid) rfl (idPresOn_toolOutputUpdate iid delta)
    · exact h s
  | setToolStatus sid iid st' =>
    intro s
    simp only [sessionReducer]
    rw [getItems_set]
    split
    · exact resolveUpd_nodup (h sid) rfl (idPresOn_toolStatusUpdate iid st')
    · exact h s
  | appendToolChanges sid iid cs =>
    intro s
    simp only [sessionReducer]
    rw [getItems_set]
    split
    · exact resolveUpd_nodup (h sid) rfl (idPresOn_toolChangesUpdate iid cs)
    · exact h s
  | upsertItem sid item =>
    intro s
    simp only [sessionReducer]
    rw [getItems_set]
    split
    · exact resolveUpd_nodup (h sid) rfl (idPresOn_merge item)
    · exact h s
  | setSessionItems sid items =>
    intro s
    simp only [sessionReducer]
    rw [getItems_set]
    split
    · have hf' : (items.map (fun i => i.id)).Nodup := hf
      exact hf'.sublist ((sliceLast_sublist _ items).map _)
    · exact h s
  | setSessions ws sessions => exact fun s => h s
  | setSessionListLoading ws b => exact fun s => h s
  | setSessionPlan sid plan => exact fun s => h s
  | setSessionTitle ws sid title =>
    intro s
    simp only [sessionReducer]
    split
    · exact h s
    · exact h s

theorem c7_witness :
    uniqIds (sessionReducer 0 initialState (.appendToolOutput "s" "t" "x")) :=
  c7_amended_uniqueness 0 initialState (.appendToolOutput "s" "t" "x")
    (fun _ => by simp [getItems, initialState]) trivial

/-- C2: folding any nonempty sequence of tool-call actions that share one
session and one item id, starting from a state in which no item carries that
id, leaves exactly one item with that id; it is a tool item whose `status` is
the last explicitly-set status value, whose `output` is the concatenation of
all output deltas in dispatch order, and whose `changes` list is the
concatenation of all dispatched change lists in order. -/
theorem c2_tool_action_accumulation (now : Int) (st : SessionState)
    (sid iid : String) (a0 : ToolAct) (rest : List ToolAct)
    (hfresh : ∀ i ∈ getItems st sid, i.id ≠ iid) :
    ∃ pre t,
      ((((a0 :: rest).map (fun a => a.toAction sid iid)).foldl
          (sessionReducer now) st).itemsBySession sid = some (pre ++ [t])) ∧
      (∀ i ∈ pre, i.id ≠ iid) ∧ t.id = iid ∧ t.kind = "tool" ∧
      t.output.getD "" = outConcat (a0 :: rest) ∧
      t.changes.getD [] = changesConcat (a0 :: rest) ∧
      (∀ s, lastStatus (a0 :: rest) = some s → t.status = some s) := by
  have h1 := c2_first now st sid iid a0 hfresh
  have hpre : ∀ i ∈ sliceLast (MAX_ITEMS_PER_SESSION - 1) (getItems st sid),
      i.id ≠ iid := fun i hi => hfresh i (sliceLast_subset hi)
  rw [List.map_cons, List.foldl_cons]
  have h2 := c2_fold now sid iid rest _ _ _ h1 (createToolItem_id iid a0)
    (createToolItem_kind iid a0) hpre
  refine ⟨_, _, h2, hpre, ?_, ?_, ?_, ?_, ?_⟩
  · rw [foldl_applyToolAct_id]
    exact createToolItem_id iid a0
  · rw [foldl_applyToolAct_kind]
    exact createToolItem_kind iid a0
  · rw [foldl_applyToolAct_output]
    cases a0 <;>
      simp [createToolItem, toolOutputCreate, toolStatusCreate,
        toolChangesCreate, outConcat, emptyItem]
  · rw [foldl_applyToolAct_changes]
    cases a0 <;>
      simp [createToolItem, toolOutputCreate, toolStatusCreate,
        toolChangesCreate, changesConcat, emptyItem]
  · intro s hs
    rw [foldl_applyToolAct_status]
    rw [lastStatus_cons] at hs
    cases hls : lastStatus rest with
    | some s' =>
      rw [hls] at hs
      exact hs
    | none =>
      rw [hls] at hs
      cases a0 with
      | out d => exact Option.noConfusion hs
      | setStatus s'' => exact hs
      | addChanges cs => exact Option.noConfusion hs

theorem c2_witness :
    ∃ pre t,
      ((([ToolAct.setStatus "pending", ToolAct.out "a",
          ToolAct.addChanges [{ path := "f", kind := some "MOD", diff := some "d" }],
          ToolAct.setStatus "completed", ToolAct.out "b"].map
            (fun a => a.toAction "s" "t1")).foldl
          (sessionReducer 0) initialState).itemsBySession "s" = some (pre ++ [t])) ∧
      (∀ i ∈ pre, i.id ≠ "t1") ∧ t.id = "t1" ∧ t.kind = "tool" ∧
      t.output.getD "" = outConcat [ToolAct.setStatus "pending", ToolAct.out "a",
          ToolAct.addChanges [{ path := "f", kind := some "MOD", diff := some "d" }],
          ToolAct.setStatus "completed", ToolAct.out "b"] ∧
      t.changes.getD [] = changesConcat [ToolAct.setStatus "pending", ToolAct.out "a",
          ToolAct.addChanges [{ path := "f", kind := some "MOD", diff := some "d" }],
          ToolAct.setStatus "completed", ToolAct.out "b"] ∧
      (∀ s, lastStatus [ToolAct.setStatus "pending", ToolAct.out "a",
          ToolAct.addChanges [{ path := "f", kind := some "MOD", diff := some "d" }],
          ToolAct.setStatus "completed", ToolAct.out "b"] = some s → t.status = some s) :=
  c2_tool_action_accumulation 0 initialState "s" "t1" (ToolAct.setStatus "pending")
    [ToolAct.out "a",
     ToolAct.addChanges [{ path := "f", kind := some "MOD", diff := some "d" }],
     ToolAct.setStatus "completed", ToolAct.out "b"]
    (fun i hi => by simp [getItems, initialState] at hi)

/-- C9: when the external send operation fails, the dispatched sequence
leaves the session's `isProcessing` flag false while both the optimistic
user message item and the pre-created empty assistant item remain in the
session's item sequence; the failure path is total (the catch handler
swallows the exception). -/
theorem c9_send_failure_state (now : Int) (rand : String) (st : SessionState)
    (ws sid text : String)
    (hfresh : ∀ i ∈ getItems st sid, i.id ≠ mkAssistantItemId now rand) :
    ((((sendMessageFailureDispatches ws sid text now rand).foldl
         (sessionReducer now) st).sessionStatusById sid).bind
       (fun o => o.isProcessing) = some false) ∧
    (∃ u ∈ getItems ((sendMessageFailureDispatches ws sid text now rand).foldl
         (sessionReducer now) st) sid,
       u.id = mkUserItemId now ∧ u.kind = "message" ∧ u.role = some "user" ∧
       u.text = some text) ∧
    (∃ a ∈ getItems ((sendMessageFailureDispatches ws sid text now rand).foldl
         (sessionReducer now) st) sid,
       a.id = mkAssistantItemId now rand ∧ a.kind = "message" ∧
       a.role = some "assistant" ∧ a.text = some "") := by
  simp only [sendMessageFailureDispatches, List.foldl_cons, List.foldl_nil]
  have h1 := addUserMessage_items now st ws sid text
  have h3 : (sessionReducer now
      (sessionReducer now (sessionReducer now st (.addUserMessage ws sid text))
        (.markProcessing sid true))
      (.setSessionPlan sid none)).itemsBySession sid =
      (sessionReducer now st (.addUserMessage ws sid text)).itemsBySession sid := by
    rw [setSessionPlan_items_eq, markProcessing_items_eq]
  have hfr4 : ∀ i ∈ ((sessionReducer now
      (sessionReducer now (sessionReducer now st (.addUserMessage ws sid text))
        (.markProcessing sid true))
      (.setSessionPlan sid none)).itemsBySession sid).getD [],
      i.id ≠ (pendingAssistantItem now rand).id := by
    rw [h3, h1]
    intro i hi
    simp only [Option.getD_some] at hi
    rcases List.mem_append.mp hi with hs | hu
    · exact hfresh i (sliceLast_subset hs)
    · rw [List.mem_singleton.mp hu]
      show mkUserItemId now ≠ (pendingAssistantItem now rand).id
      unfold mkUserItemId pendingAssistantItem mkAssistantItemId
      exact user_ne_assistant (toString now) (toString now) rand
  have h4 := upsertItem_fresh_items now
    (sessionReducer now
      (sessionReducer now (sessionReducer now st (.addUserMessage ws sid text))
        (.markProcessing sid true))
      (.setSessionPlan sid none)) sid (pendingAssistantItem now rand) hfr4
  rw [h3, h1] at h4
  simp only [Option.getD_some] at h4
  refine ⟨markProcessing_isProcessing now _ sid false, ?_, ?_⟩
  · refine ⟨{ emptyItem with
        id := mkUserItemId now, kind := "message", role := some "user",
        text := some text }, ?_, rfl, rfl, rfl, rfl⟩
    show _ ∈ getItems _ sid
    unfold getItems
    rw [markProcessing_items_eq, h4]
    simp only [Option.getD_some]
    apply List.mem_append_left
    exact mem_sliceLast_append_last (by decide) _ _
  · refine ⟨pendingAssistantItem now rand, ?_, rfl, rfl, rfl, rfl⟩
    show _ ∈ getItems _ sid
    unfold getItems
    rw [markProcessing_items_eq, h4]
    simp only [Option.getD_some]
    exact List.mem_append_right _ (List.mem_singleton_self _)

theorem c9_witness :
    ((((sendMessageFailureDispatches "w" "s" "hi" 5 "ab12cd").foldl
         (sessionReducer 5) initialState).sessionStatusById "s").bind
       (fun o => o.isProcessing) = some false) ∧
    (∃ u ∈ getItems ((sendMessageFailureDispatches "w" "s" "hi" 5 "ab12cd").foldl
         (sessionReducer 5) initialState) "s",
       u.id = mkUserItemId 5 ∧ u.kind = "message" ∧ u.role = some "user" ∧
       u.text = some "hi") ∧
    (∃ a ∈ getItems ((sendMessageFailureDispatches "w" "s" "hi" 5 "ab12cd").foldl
         (sessionReducer 5) initialState) "s",
       a.id = mkAssistantItemId 5 "ab12cd" ∧ a.kind = "message" ∧
       a.role = some "assistant" ∧ a.text = some "") :=
  c9_send_failure_state 5 "ab12cd" initialState "w" "s" "hi"
    (fun i hi => by simp [getItems, initialState] at hi)

/-- C4 counterexample: a `session/created` envelope for the subscribed
workspace whose `params` payload is null makes the handler fault (the
unchecked `session.id` access throws), so envelope processing is not
fault-free for every payload shape. -/
theorem c4_counterexample :
    handleEvent "w" (fun _ => none) (fun _ => none) "r" 0 "w" "session/created"
      JsValue.null = .error () := rfl

/-- C4 amended: processing an envelope never faults provided its `params`
payload is neither null nor undefined — for any such payload, of any shape,
every handler produces a (possibly empty) action list, skipping malformed
inner fragments; a null/undefined payload faults in the `session/created`,
`session/updated`, `session/deleted`, `session/update`, `content/updated`
and `turn/completed` handlers, which read properties of `params`
unchecked. -/
theorem c4_nonnull_params_never_fault (wsId : String) (aRef rRef : StrMap String)
    (rand : String) (now : Int) (eventWsId method : String) (params : JsValue)
    (h1 : params ≠ .null) (h2 : params ≠ .undefined) :
    ∃ r, handleEvent wsId aRef rRef rand now eventWsId method params = .ok r := by
  unfold handleEvent
  simp only [jsGet_ok h1 h2, ok_bind]
  repeat' split
  all_goals exact ⟨_, rfl⟩

theorem c4_witness :
    (JsValue.str "garbage" ≠ JsValue.null) ∧
    ∃ r, handleEvent "w" (fun _ => none) (fun _ => none) "r" 0 "w"
        "session/update" (JsValue.str "garbage") = .ok r :=
  ⟨by simp, c4_nonnull_params_never_fault "w" (fun _ => none) (fun _ => none)
    "r" 0 "w" "session/update" (JsValue.str "garbage") (by simp) (by simp)⟩

/-- C6: a `tool_call` event carrying a tool-call id upserts a tool item with
id `tool-[sessionId]-[toolCallId]`, title `"[kind]: [title]"` when the kind
is non-empty and `[title]` otherwise, status defaulting to "pending" when
the event carries none, and detail holding the kind and the JSON-stringified
raw input truncated with an ellipsis beyond 4000 characters; a subsequent
`tool_call_update` carrying only a status dispatches exactly one
`setToolStatus` action, whose reducer update replaces only the `status`
field of an existing tool item. -/
theorem c6_tool_call_decode (wsId : String) (aRef rRef : StrMap String)
    (rand : String) (now : Int) (sid cid t k : String) (r : JsValue)
    (hsid : sid ≠ "") (hcid : cid ≠ "") :
    ((handleEvent wsId aRef rRef rand now wsId "session/update"
        (toolCallParams sid cid t k r)).map (fun h => h.actions) =
      .ok [.upsertItem sid
        { emptyItem with
          id := "tool-" ++ sid ++ "-" ++ cid, kind := "tool",
          toolType := some "acpToolCall",
          title := some (if k ≠ "" then k ++ ": " ++ t else t),
          detail := some (truncateEllipsis 4000 (String.intercalate "\n"
            ([k, if jsTruthy r then (jsonStringify2 r).getD "" else ""].filter
              (fun s => s ≠ "")))),
          status := some "pending" }]) ∧
    (∀ st', st' ≠ "" →
      (handleEvent wsId aRef rRef rand now wsId "session/update"
          (toolUpdateParams sid cid st')).map (fun h => h.actions) =
        .ok [.setToolStatus sid ("tool-" ++ sid ++ "-" ++ cid) st']) ∧
    (∀ s (i : ConversationItem), i.kind = "tool" →
      toolStatusUpdate s i = some { i with status := some s }) := by
  refine ⟨?_, ?_, ?_⟩
  · simp [handleEvent, sessionUpdateActions, toolCallParams, jsGet, jsGetD,
      lookupField, jsNullish, jsToString, jsTruthy, jsTypeofObject, hsid, hcid,
      ok_bind, Except.map]
  · intro st' hst'
    simp [handleEvent, sessionUpdateActions, toolUpdateParams, jsGet, jsGetD,
      lookupField, jsNullish, jsToString, jsTruthy, jsTypeofObject, hsid, hcid,
      hst', ok_bind, Except.map]
  · intro s i hi
    simp [toolStatusUpdate, hi]

theorem c6_witness :
    (handleEvent "w" (fun _ => none) (fun _ => none) "r" 0 "w" "session/update"
        (toolCallParams "s1" "c1" "run tests" "execute" .undefined)).map
        (fun h => h.actions) =
      .ok [.upsertItem "s1"
        { emptyItem with
          id := "tool-s1-c1", kind := "tool", toolType := some "acpToolCall",
          title := some "execute: run tests", detail := some "execute",
          status := some "pending" }] :=
  ((c6_tool_call_decode "w" (fun _ => none) (fun _ => none) "r" 0 "s1" "c1"
      "run tests" "execute" .undefined (by decide) (by decide)).1).trans (by rfl)
